import Mathlib

/-!
Verification of the worker state-detection and aggregation engine of the
chief-wiggum TUI. Pure process-control helpers and the metrics aggregator are
embedded from `wiggum_tui/actions/worker_control.py` and
`wiggum_tui/widgets/metrics_panel.py`; the worker scanner module
(`wiggum_tui/data/worker_scanner.py`) is not part of the sources at hand, so
its definitions are modelled from the specification, as marked in their doc
comments. OS interaction (signals, /proc reads, subprocess execution) is
represented by explicit oracle functions passed as arguments.
-/

namespace Wiggum

/-- Boolean test that `p` occurs at the start of `s` (lists of characters). -/
def startsWithTok : List Char → List Char → Bool
  | [], _ => true
  | _ :: _, [] => false
  | p :: ps, c :: cs => p == c && startsWithTok ps cs

/-- Boolean test that `p` occurs as a contiguous run somewhere inside `s`.
Models the Python expression `p in s` on strings. -/
def containsTok (p : List Char) : List Char → Bool
  | [] => p.isEmpty
  | c :: cs => startsWithTok p (c :: cs) || containsTok p cs

/-- Split a character list at newline characters, as Python `str.split("\n")`:
the result always has one (possibly empty) piece more than there are
newlines. -/
def splitLines : List Char → List (List Char)
  | [] => [[]]
  | c :: cs =>
    if c = '\n' then [] :: splitLines cs
    else
      match splitLines cs with
      | [] => [[c]]
      | l :: ls => (c :: l) :: ls

/-- Numeric value of a decimal digit string, as Python `int`. -/
def natOfDigits (ds : List Char) : Nat :=
  ds.foldl (fun acc c => acc * 10 + (c.toNat - '0'.toNat)) 0

/-- Strip leading and trailing whitespace, as Python `str.strip()`. -/
def stripChars (cs : List Char) : List Char :=
  ((cs.dropWhile Char.isWhitespace).reverse.dropWhile Char.isWhitespace).reverse

/-! ## Process control embedding: `wiggum_tui/actions/worker_control.py` -/

/-- Outcome of the OS probe `os.kill(pid, 0)`: the signal is delivered
(process exists and is signalable), the process does not exist
(`ProcessLookupError`), or the process exists but the caller may not signal it
(`PermissionError`). -/
inductive KillOutcome where
  | ok
  | noSuchProcess
  | permissionDenied
deriving DecidableEq

/-- Embedded from `worker_control.is_process_running`: probe `os.kill(pid, 0)`
and report `True` unless the process does not exist. -/
def is_process_running (kill0 : Nat → KillOutcome) (pid : Nat) : Bool :=
  match kill0 pid with
  | .ok => true
  | .noSuchProcess => false
  | .permissionDenied => true

/-- Outcome of `subprocess.run(argv, capture_output=True, timeout=t)`:
completion with an exit code, `subprocess.TimeoutExpired`,
`FileNotFoundError` (missing executable), or `OSError`. -/
inductive RunOutcome where
  | completed (returncode : Int)
  | timedOut
  | commandNotFound
  | osError
deriving DecidableEq

/-- Timeout (seconds) passed by `stop_worker` to `subprocess.run`. -/
def stopTimeoutSeconds : Nat := 35

/-- Timeout (seconds) passed by `kill_worker` to `subprocess.run`. -/
def killTimeoutSeconds : Nat := 10

/-- Embedded from `worker_control.stop_worker`: run `wiggum stop <id>` with a
35-second timeout; success is exit code zero; timeout, missing command and OS
errors are reported as `False`. -/
def stop_worker (run : List String → Nat → RunOutcome) (worker_id : String) : Bool :=
  match run ["wiggum", "stop", worker_id] stopTimeoutSeconds with
  | .completed rc => rc == 0
  | .timedOut => false
  | .commandNotFound => false
  | .osError => false

/-- Embedded from `worker_control.kill_worker`: run `wiggum kill <id>` with a
10-second timeout; success is exit code zero; timeout, missing command and OS
errors are reported as `False`. -/
def kill_worker (run : List String → Nat → RunOutcome) (worker_id : String) : Bool :=
  match run ["wiggum", "kill", worker_id] killTimeoutSeconds with
  | .completed rc => rc == 0
  | .timedOut => false
  | .commandNotFound => false
  | .osError => false

/-- State of `/proc/<pid>/cmdline` as observed by `verify_worker_process`:
the path does not exist, it is readable with the given contents, or reading
it raises `OSError`/`PermissionError`. -/
inductive ProcCmdline where
  | absent
  | readable (contents : String)
  | readError
deriving DecidableEq

/-- Embedded from `worker_control.verify_worker_process`: the PID passes
identity verification exactly when `/proc/<pid>/cmdline` exists and its
contents contain the substring `bash`; read errors yield `False`. -/
def verify_worker_process (proc : Nat → ProcCmdline) (pid : Nat) : Bool :=
  match proc pid with
  | .absent => false
  | .readable s => containsTok "bash".data s.data
  | .readError => false

/-! ## Completion marker reader and worker scanner

`wiggum_tui/data/worker_scanner.py` is exercised by the test suite and called
by the metrics panel but its source is not among the files at hand; the
definitions below are modelled from the specification (sections 4.1 to 4.3 and
6 of the design document). -/

/-- Tri-state verdict of the completion marker reader. -/
inductive Verdict where
  | complete
  | incomplete
  | failed
deriving DecidableEq

/-- Lifecycle status of a worker. -/
inductive WorkerStatus where
  | running
  | completed
  | failed
  | stopped
deriving DecidableEq

/-- The per-line failed token `- [*]`. -/
def failedTok : List Char := "- [*]".data

/-- The per-line unmarked token `- [ ]`. -/
def unmarkedTok : List Char := "- [ ]".data

/-- A checklist line carrying the failed token. -/
def lineCarriesFailed (l : List Char) : Bool := containsTok failedTok l

/-- A checklist line carrying the unmarked token. -/
def lineCarriesUnmarked (l : List Char) : Bool := containsTok unmarkedTok l

/-- Modelled from the spec: `worker_scanner.get_prd_status`, the completion
marker reader of section 4.3. The argument is the checklist file contents,
`none` when the file does not exist. Verdict `failed` when some line carries
the failed token, otherwise `incomplete` when some line carries the unmarked
token or the file is missing, otherwise `complete`. -/
def get_prd_status (file : Option String) : Verdict :=
  match file with
  | none => .incomplete
  | some c =>
    let ls := splitLines c.data
    if ls.any lineCarriesFailed then .failed
    else if ls.any lineCarriesUnmarked then .incomplete
    else .complete

/-- Characters allowed in a task identifier: uppercase letters, digits and
hyphens. -/
def isTaskIdChar (c : Char) : Bool := c.isUpper || c.isDigit || c == '-'

/-- Modelled from the spec: the worker directory naming pattern of section
4.1, `worker-<TASK_ID>-<TIMESTAMP>` with `TASK_ID` of 4 to 10 characters drawn
from uppercase letters, digits and hyphens and `TIMESTAMP` of 1 to 10 decimal
digits (the regex `WORKER_PATTERN` of `worker_scanner.py`). Since the
timestamp is all digits and is preceded by a hyphen, a matching name splits
uniquely at the last hyphen; returns the extracted task id and timestamp. -/
def matchRest (rest : List Char) : Option (String × Nat) :=
  match rest.reverse.dropWhile Char.isDigit with
  | '-' :: tidRev =>
    let tid := tidRev.reverse
    let ts := (rest.reverse.takeWhile Char.isDigit).reverse
    if 1 ≤ ts.length ∧ ts.length ≤ 10 ∧ 4 ≤ tid.length ∧ tid.length ≤ 10
        ∧ tid.all isTaskIdChar then
      some (String.mk tid, natOfDigits ts)
    else none
  | _ => none

/-- Modelled from the spec: the worker directory naming pattern of section
4.1 applied to a whole name, `worker-` followed by the task id, a hyphen and
the timestamp. -/
def matchWorkerName (name : String) : Option (String × Nat) :=
  if startsWithTok "worker-".data name.data then matchRest (name.data.drop 7)
  else none

/-- Modelled from the spec: parse the liveness marker contents as a decimal
PID (`int(contents.strip())`); unparsable contents count as no PID
(section 7, MalformedEntry / PartialRead). -/
def parsePid (s : String) : Option Nat :=
  let t := stripChars s.data
  if t ≠ [] ∧ t.all Char.isDigit then some (natOfDigits t) else none

/-- Map the completion marker verdict to the non-running statuses of the
resolution order of section 4.2. -/
def statusFromMarker : Verdict → WorkerStatus
  | .failed => .failed
  | .complete => .completed
  | .incomplete => .stopped

/-- Modelled from the spec: the status resolution state machine of section
4.2. `alive` is the OS liveness probe and `verified` the identity
verification; `pidFile` is the liveness marker contents (`none` when the
marker file is absent) and `v` the completion marker verdict. RUNNING exactly
when a PID is present, alive and verified; otherwise the marker verdict
decides. -/
def resolve_status (alive verified : Nat → Bool) (pidFile : Option String)
    (v : Verdict) : WorkerStatus :=
  match pidFile with
  | some s =>
    match parsePid s with
    | some pid => if alive pid && verified pid then .running else statusFromMarker v
    | none => statusFromMarker v
  | none => statusFromMarker v

/-- A fully resolved worker record (the `Worker` data model of section 3,
restricted to the fields the claims mention). -/
structure Worker where
  id : String
  task_id : String
  timestamp : Nat
  pid : Option Nat
  status : WorkerStatus
  pr_url : Option String
deriving DecidableEq

/-- One entry of the `workers` directory listing: its name, whether it is a
subdirectory, and the contents of the worker files inside it (`none` for a
missing file). -/
structure DirEntry where
  name : String
  isDir : Bool
  pidFile : Option String
  prdFile : Option String
  prUrlFile : Option String

/-- A root directory: `workersDir` is the listing of its `workers` child,
`none` when that directory does not exist. -/
structure RootDir where
  workersDir : Option (List DirEntry)

/-- Modelled from the spec: resolve one directory entry to a worker. Ordinary
files and names failing the pattern are skipped (`none`). -/
def resolveEntry (alive verified : Nat → Bool) (e : DirEntry) : Option Worker :=
  if e.isDir then
    match matchWorkerName e.name with
    | some (tid, ts) =>
      some { id := e.name
             task_id := tid
             timestamp := ts
             pid := e.pidFile.bind parsePid
             status := resolve_status alive verified e.pidFile (get_prd_status e.prdFile)
             pr_url := e.prUrlFile }
    | none => none
  else none

/-- Comparison used to sort scan results: timestamp descending. -/
def tsDescLe (a b : Worker) : Bool := decide (b.timestamp ≤ a.timestamp)

/-- Modelled from the spec: `worker_scanner.scan_workers` (section 4.1).
Enumerate the entries of the `workers` child directory, resolve each matching
subdirectory to a worker, and return the workers sorted by timestamp
descending; an absent `workers` directory yields the empty list. -/
def scan_workers (alive verified : Nat → Bool) (root : RootDir) : List Worker :=
  match root.workersDir with
  | none => []
  | some entries => (entries.filterMap (resolveEntry alive verified)).mergeSort tsDescLe

/-! ## Fleet aggregator embedding: `wiggum_tui/widgets/metrics_panel.py`

The aggregator consumes an external log-summary provider
(`parse_iteration_logs` / `get_conversation_summary`, outside the core).
Costs, reported as floats by the provider, are modelled as rationals. -/

/-- Token usage of one result entry of a conversation. -/
structure Usage where
  input : Nat
  output : Nat
  cache_creation : Nat
  cache_read : Nat
deriving DecidableEq

/-- The summary fields returned by `get_conversation_summary`. -/
structure ConversationSummary where
  turns : Nat
  tool_calls : Nat
  cost_usd : ℚ
  duration_ms : Nat
  tokens : Nat
deriving DecidableEq

/-- The data returned by the log-summary provider for one worker directory. -/
structure ConversationData where
  summary : ConversationSummary
  results : List Usage
deriving DecidableEq

/-- The all-zero summary. -/
def zeroSummary : ConversationSummary :=
  { turns := 0, tool_calls := 0, cost_usd := 0, duration_ms := 0, tokens := 0 }

/-- Modelled from the spec: the external log-summary provider (section 6) as
seen by the aggregator. A provider maps a worker id to `some` conversation
data, or `none` when reading the log summary fails; per the failure semantics
of section 4.4 a read failure yields an empty conversation, so the affected
worker contributes zero. -/
def readConversation (prov : String → Option ConversationData) (wid : String) :
    ConversationData :=
  (prov wid).getD { summary := zeroSummary, results := [] }

/-- The summary the aggregator sees for one worker id. -/
def summaryOf (prov : String → Option ConversationData) (wid : String) :
    ConversationSummary :=
  (readConversation prov wid).summary

/-- One row of the per-worker summary list built by the aggregator. -/
structure WorkerSummaryRow where
  worker_id : String
  task_id : String
  status : WorkerStatus
  turns : Nat
  tool_calls : Nat
  cost_usd : ℚ
  duration_ms : Nat
  tokens : Nat
deriving DecidableEq

/-- Embedded from `metrics_panel.AggregateMetrics`. -/
structure AggregateMetrics where
  total_workers : Nat := 0
  running_workers : Nat := 0
  completed_workers : Nat := 0
  failed_workers : Nat := 0
  total_turns : Nat := 0
  total_tool_calls : Nat := 0
  total_cost_usd : ℚ := 0
  total_duration_ms : Nat := 0
  total_tokens : Nat := 0
  input_tokens : Nat := 0
  output_tokens : Nat := 0
  cache_creation_tokens : Nat := 0
  cache_read_tokens : Nat := 0
  worker_summaries : List WorkerSummaryRow := []

/-- The summary row recorded for a worker (the dict appended by
`aggregate_worker_metrics`). -/
def mkRow (prov : String → Option ConversationData) (w : Worker) : WorkerSummaryRow :=
  let s := summaryOf prov w.id
  { worker_id := w.id
    task_id := w.task_id
    status := w.status
    turns := s.turns
    tool_calls := s.tool_calls
    cost_usd := s.cost_usd
    duration_ms := s.duration_ms
    tokens := s.tokens }

/-- The condition under which a worker gets a summary row:
`summary["turns"] > 0 or summary["cost_usd"] > 0`. -/
def rowCond (prov : String → Option ConversationData) (w : Worker) : Bool :=
  let s := summaryOf prov w.id
  decide (0 < s.turns) || decide (0 < s.cost_usd)

/-- Fold the token breakdown of the result entries into the running totals. -/
def accumResults (m : AggregateMetrics) : List Usage → AggregateMetrics
  | [] => m
  | r :: rs =>
    accumResults
      { m with
        input_tokens := m.input_tokens + r.input
        output_tokens := m.output_tokens + r.output
        cache_creation_tokens := m.cache_creation_tokens + r.cache_creation
        cache_read_tokens := m.cache_read_tokens + r.cache_read }
      rs

/-- The loop body of `aggregate_worker_metrics` for one worker: bump the
status counter, fold the summary into the running totals, fold the token
breakdown, and append a summary row when turns or cost is positive. -/
def accumWorker (prov : String → Option ConversationData) (m : AggregateMetrics)
    (w : Worker) : AggregateMetrics :=
  let m :=
    match w.status with
    | .running => { m with running_workers := m.running_workers + 1 }
    | .completed => { m with completed_workers := m.completed_workers + 1 }
    | .failed => { m with failed_workers := m.failed_workers + 1 }
    | .stopped => m
  let conv := readConversation prov w.id
  let s := conv.summary
  let m :=
    { m with
      total_turns := m.total_turns + s.turns
      total_tool_calls := m.total_tool_calls + s.tool_calls
      total_cost_usd := m.total_cost_usd + s.cost_usd
      total_duration_ms := m.total_duration_ms + s.duration_ms
      total_tokens := m.total_tokens + s.tokens }
  let m := accumResults m conv.results
  if rowCond prov w then { m with worker_summaries := m.worker_summaries ++ [mkRow prov w] }
  else m

/-- Comparison used to sort summary rows: cost descending. -/
def costDescLe (a b : WorkerSummaryRow) : Bool := decide (b.cost_usd ≤ a.cost_usd)

/-- Embedded from `metrics_panel.aggregate_worker_metrics`: scan the workers,
tally status counts, fold the per-worker log summaries into the running totals,
record a summary row for workers with positive turns or cost, and sort the
rows by cost descending. -/
def aggregate_worker_metrics (prov : String → Option ConversationData)
    (alive verified : Nat → Bool) (root : RootDir) : AggregateMetrics :=
  let workers := scan_workers alive verified root
  let m := workers.foldl (accumWorker prov) { total_workers := workers.length }
  { m with worker_summaries := m.worker_summaries.mergeSort costDescLe }

/-- The tuple hashed by `MetricsPanel._compute_data_hash` (the Python code
renders it with `str`, which maps equal tuples to equal strings). -/
def compute_data_hash (m : AggregateMetrics) : Nat × Nat × Nat × ℚ × Nat × Nat :=
  (m.total_workers, m.completed_workers, m.failed_workers,
   m.total_cost_usd, m.total_turns, m.total_tool_calls)

/-- The mutable state of a `MetricsPanel` relevant to change detection. -/
structure MetricsPanelState where
  metrics : AggregateMetrics
  last_data_hash : Nat × Nat × Nat × ℚ × Nat × Nat

/-- Embedded from `MetricsPanel.refresh_data`: reload the metrics, compare
the new fingerprint with the stored one, and skip re-rendering (first
component `true`) exactly on equality; otherwise store the new fingerprint
and re-render. -/
def refresh_data (prov : String → Option ConversationData)
    (alive verified : Nat → Bool) (root : RootDir) (s : MetricsPanelState) :
    Bool × MetricsPanelState :=
  let m := aggregate_worker_metrics prov alive verified root
  let newHash := compute_data_hash m
  if newHash = s.last_data_hash then
    (true, { metrics := m, last_data_hash := s.last_data_hash })
  else
    (false, { metrics := m, last_data_hash := newHash })

/-! ## Helper lemmas -/

theorem startsWithTok_eq_true_iff (p cs : List Char) :
    startsWithTok p cs = true ↔ ∃ r, cs = p ++ r := by
  induction p generalizing cs with
  | nil => simp [startsWithTok]
  | cons x xs ih =>
    cases cs with
    | nil =>
      simp only [startsWithTok, List.cons_append]
      constructor
      · intro h; exact absurd h (by simp)
      · rintro ⟨r, hr⟩; exact absurd hr (by simp)
    | cons c cs =>
      simp only [startsWithTok, Bool.and_eq_true, beq_iff_eq, ih, List.cons_append]
      constructor
      · rintro ⟨rfl, r, rfl⟩; exact ⟨r, rfl⟩
      · rintro ⟨r, hr⟩
        obtain ⟨h1, h2⟩ := List.cons_eq_cons.mp hr
        exact ⟨h1.symm, r, h2⟩

theorem takeWhile_all_append_cons (p : Char → Bool) (xs : List Char) (y : Char)
    (ys : List Char) (hxs : xs.all p = true) (hy : p y = false) :
    (xs ++ y :: ys).takeWhile p = xs := by
  induction xs with
  | nil => simp [List.takeWhile, hy]
  | cons a as ih =>
    simp only [List.all_cons, Bool.and_eq_true] at hxs
    simp [List.takeWhile, hxs.1, ih hxs.2]

theorem dropWhile_all_append_cons (p : Char → Bool) (xs : List Char) (y : Char)
    (ys : List Char) (hxs : xs.all p = true) (hy : p y = false) :
    (xs ++ y :: ys).dropWhile p = y :: ys := by
  induction xs with
  | nil => simp [List.dropWhile, hy]
  | cons a as ih =>
    simp only [List.all_cons, Bool.and_eq_true] at hxs
    simp [List.dropWhile, hxs.1, ih hxs.2]

theorem all_takeWhile (p : Char → Bool) (l : List Char) :
    (l.takeWhile p).all p = true := by
  induction l with
  | nil => simp
  | cons a as ih =>
    by_cases h : p a = true
    · simp [List.takeWhile, h, ih]
    · simp only [Bool.not_eq_true] at h
      simp [List.takeWhile, h]

theorem length_filterMap_eq_length_filter {α β : Type} (f : α → Option β) (l : List α) :
    (l.filterMap f).length = (l.filter (fun a => (f a).isSome)).length := by
  induction l with
  | nil => rfl
  | cons a as ih =>
    cases h : f a with
    | none => simp [List.filterMap_cons, List.filter_cons, h, ih]
    | some b => simp [List.filterMap_cons, List.filter_cons, h, ih]

theorem matchRest_shape (rest : List Char) (tid : String) (ts : Nat)
    (h : matchRest rest = some (tid, ts)) :
    ∃ ds : List Char,
      rest = tid.data ++ '-' :: ds
      ∧ ds.all Char.isDigit = true
      ∧ 1 ≤ ds.length ∧ ds.length ≤ 10
      ∧ 4 ≤ tid.data.length ∧ tid.data.length ≤ 10
      ∧ tid.data.all isTaskIdChar = true
      ∧ ts = natOfDigits ds := by
  unfold matchRest at h
  split at h
  case h_2 => cases h
  case h_1 tidRev heq =>
    dsimp only at h
    split at h
    case isFalse => cases h
    case isTrue hcond =>
      injection h with hpair
      obtain ⟨htid, hts⟩ := Prod.mk.inj hpair
      refine ⟨(rest.reverse.takeWhile Char.isDigit).reverse, ?_, ?_, ?_, ?_, ?_, ?_, ?_, ?_⟩
      · have h0 := List.takeWhile_append_dropWhile Char.isDigit rest.reverse
        rw [heq] at h0
        rw [← htid]
        show rest = tidRev.reverse ++ '-' :: (List.takeWhile Char.isDigit rest.reverse).reverse
        calc rest = rest.reverse.reverse := (List.reverse_reverse rest).symm
          _ = (List.takeWhile Char.isDigit rest.reverse ++ '-' :: tidRev).reverse := by
              rw [h0]
          _ = tidRev.reverse ++ '-' :: (List.takeWhile Char.isDigit rest.reverse).reverse := by
              simp [List.reverse_append, List.append_assoc]
      · rw [List.all_reverse]
        exact all_takeWhile Char.isDigit rest.reverse
      · simpa using hcond.1
      · simpa using hcond.2.1
      · rw [← htid]; simpa using hcond.2.2.1
      · rw [← htid]; simpa using hcond.2.2.2.1
      · rw [← htid]; simpa using hcond.2.2.2.2
      · exact hts.symm

theorem matchRest_of_shape (tid : String) (ds : List Char)
    (hall : ds.all Char.isDigit = true)
    (h1 : 1 ≤ ds.length) (h2 : ds.length ≤ 10)
    (h3 : 4 ≤ tid.data.length) (h4 : tid.data.length ≤ 10)
    (h5 : tid.data.all isTaskIdChar = true) :
    matchRest (tid.data ++ '-' :: ds) = some (tid, natOfDigits ds) := by
  unfold matchRest
  have hrev : (tid.data ++ '-' :: ds).reverse = ds.reverse ++ '-' :: tid.data.reverse := by
    simp [List.reverse_append, List.append_assoc]
  have hallr : ds.reverse.all Char.isDigit = true := by rw [List.all_reverse]; exact hall
  have hdash : Char.isDigit '-' = false := by decide
  rw [hrev, dropWhile_all_append_cons Char.isDigit ds.reverse '-' tid.data.reverse hallr hdash,
    takeWhile_all_append_cons Char.isDigit ds.reverse '-' tid.data.reverse hallr hdash]
  dsimp only
  simp only [List.reverse_reverse]
  rw [if_pos ⟨h1, h2, h3, h4, h5⟩]

/-- The worker naming pattern, characterised: a name matches with extracted
task id `tid` and timestamp `ts` exactly when it is literally `worker-`, then
the task id (4 to 10 characters over uppercase letters, digits and hyphens),
then a hyphen, then 1 to 10 decimal digits whose value is `ts`. -/
theorem matchWorkerName_decomp (name : String) (tid : String) (ts : Nat) :
    matchWorkerName name = some (tid, ts) ↔
      ∃ ds : List Char,
        name.data = "worker-".data ++ (tid.data ++ '-' :: ds)
        ∧ ds.all Char.isDigit = true
        ∧ 1 ≤ ds.length ∧ ds.length ≤ 10
        ∧ 4 ≤ tid.data.length ∧ tid.data.length ≤ 10
        ∧ tid.data.all isTaskIdChar = true
        ∧ ts = natOfDigits ds := by
  have hlen : ("worker-".data).length = 7 := by decide
  constructor
  · intro h
    unfold matchWorkerName at h
    split at h
    case isFalse => cases h
    case isTrue hpre =>
      obtain ⟨r, hr⟩ := (startsWithTok_eq_true_iff _ _).mp hpre
      have hdrop : name.data.drop 7 = r := by
        rw [hr, ← hlen, List.drop_left]
      rw [hdrop] at h
      obtain ⟨ds, hshape, hall, h1, h2, h3, h4, h5, hts⟩ := matchRest_shape r tid ts h
      exact ⟨ds, by rw [hr, hshape], hall, h1, h2, h3, h4, h5, hts⟩
  · rintro ⟨ds, hname, hall, h1, h2, h3, h4, h5, rfl⟩
    have hpre : startsWithTok "worker-".data name.data = true :=
      (startsWithTok_eq_true_iff _ _).mpr ⟨tid.data ++ '-' :: ds, hname⟩
    unfold matchWorkerName
    rw [if_pos hpre]
    have hdrop : name.data.drop 7 = tid.data ++ '-' :: ds := by
      rw [hname, ← hlen, List.drop_left]
    rw [hdrop]
    exact matchRest_of_shape tid ds hall h1 h2 h3 h4 h5

theorem resolveEntry_of_not_dir (alive verified : Nat → Bool) (e : DirEntry)
    (h : e.isDir = false) : resolveEntry alive verified e = none := by
  simp [resolveEntry, h]

theorem resolveEntry_of_no_match (alive verified : Nat → Bool) (e : DirEntry)
    (h : matchWorkerName e.name = none) : resolveEntry alive verified e = none := by
  unfold resolveEntry
  split
  · rw [h]
  · rfl

theorem resolveEntry_some_spec (alive verified : Nat → Bool) (e : DirEntry) (w : Worker)
    (h : resolveEntry alive verified e = some w) :
    e.isDir = true ∧ w.id = e.name
      ∧ matchWorkerName e.name = some (w.task_id, w.timestamp)
      ∧ w.pid = e.pidFile.bind parsePid
      ∧ w.status = resolve_status alive verified e.pidFile (get_prd_status e.prdFile)
      ∧ w.pr_url = e.prUrlFile := by
  unfold resolveEntry at h
  split at h
  case isFalse => cases h
  case isTrue hd =>
    split at h
    case h_2 => cases h
    case h_1 tid ts heq =>
      injection h with h'
      subst h'
      exact ⟨hd, rfl, heq, rfl, rfl, rfl⟩

theorem resolveEntry_isSome (alive verified : Nat → Bool) (e : DirEntry) :
    (resolveEntry alive verified e).isSome = (e.isDir && (matchWorkerName e.name).isSome) := by
  unfold resolveEntry
  cases hd : e.isDir with
  | false => simp
  | true =>
    simp only [if_true, Bool.true_and]
    cases hm : matchWorkerName e.name with
    | none => simp
    | some p => cases p; simp

theorem mem_scan_iff (alive verified : Nat → Bool) (root : RootDir) (w : Worker) :
    w ∈ scan_workers alive verified root ↔
      ∃ entries, root.workersDir = some entries
        ∧ ∃ e ∈ entries, resolveEntry alive verified e = some w := by
  unfold scan_workers
  cases hw : root.workersDir with
  | none => simp
  | some es =>
    rw [List.Perm.mem_iff (List.mergeSort_perm _ tsDescLe)]
    simp [List.mem_filterMap]

theorem accumResults_eq (rs : List Usage) (m : AggregateMetrics) :
    accumResults m rs =
      { m with
        input_tokens := m.input_tokens + (rs.map Usage.input).sum
        output_tokens := m.output_tokens + (rs.map Usage.output).sum
        cache_creation_tokens := m.cache_creation_tokens + (rs.map Usage.cache_creation).sum
        cache_read_tokens := m.cache_read_tokens + (rs.map Usage.cache_read).sum } := by
  induction rs generalizing m with
  | nil => simp [accumResults]
  | cons r rs ih =>
    simp only [accumResults]
    rw [ih]
    cases m
    simp [add_assoc]

theorem accumWorker_proj (prov : String → Option ConversationData)
    (m : AggregateMetrics) (w : Worker) :
    (accumWorker prov m w).total_workers = m.total_workers
    ∧ (accumWorker prov m w).total_turns = m.total_turns + (summaryOf prov w.id).turns
    ∧ (accumWorker prov m w).total_tool_calls =
        m.total_tool_calls + (summaryOf prov w.id).tool_calls
    ∧ (accumWorker prov m w).total_cost_usd =
        m.total_cost_usd + (summaryOf prov w.id).cost_usd
    ∧ (accumWorker prov m w).total_duration_ms =
        m.total_duration_ms + (summaryOf prov w.id).duration_ms
    ∧ (accumWorker prov m w).total_tokens = m.total_tokens + (summaryOf prov w.id).tokens
    ∧ (accumWorker prov m w).input_tokens =
        m.input_tokens + ((readConversation prov w.id).results.map Usage.input).sum
    ∧ (accumWorker prov m w).output_tokens =
        m.output_tokens + ((readConversation prov w.id).results.map Usage.output).sum
    ∧ (accumWorker prov m w).cache_creation_tokens =
        m.cache_creation_tokens
          + ((readConversation prov w.id).results.map Usage.cache_creation).sum
    ∧ (accumWorker prov m w).cache_read_tokens =
        m.cache_read_tokens + ((readConversation prov w.id).results.map Usage.cache_read).sum
    ∧ (accumWorker prov m w).worker_summaries =
        m.worker_summaries ++ (if rowCond prov w then [mkRow prov w] else []) := by
  unfold accumWorker
  cases hst : w.status <;> by_cases hrc : rowCond prov w = true <;>
    simp [hst, hrc, accumResults_eq, summaryOf]

theorem foldl_accumWorker_spec (prov : String → Option ConversationData)
    (ws : List Worker) (m : AggregateMetrics) :
    (ws.foldl (accumWorker prov) m).total_workers = m.total_workers
    ∧ (ws.foldl (accumWorker prov) m).total_turns =
        m.total_turns + (ws.map (fun x => (summaryOf prov x.id).turns)).sum
    ∧ (ws.foldl (accumWorker prov) m).total_tool_calls =
        m.total_tool_calls + (ws.map (fun x => (summaryOf prov x.id).tool_calls)).sum
    ∧ (ws.foldl (accumWorker prov) m).total_cost_usd =
        m.total_cost_usd + (ws.map (fun x => (summaryOf prov x.id).cost_usd)).sum
    ∧ (ws.foldl (accumWorker prov) m).total_duration_ms =
        m.total_duration_ms + (ws.map (fun x => (summaryOf prov x.id).duration_ms)).sum
    ∧ (ws.foldl (accumWorker prov) m).total_tokens =
        m.total_tokens + (ws.map (fun x => (summaryOf prov x.id).tokens)).sum
    ∧ (ws.foldl (accumWorker prov) m).input_tokens =
        m.input_tokens
          + (ws.map (fun x => ((readConversation prov x.id).results.map Usage.input).sum)).sum
    ∧ (ws.foldl (accumWorker prov) m).output_tokens =
        m.output_tokens
          + (ws.map (fun x => ((readConversation prov x.id).results.map Usage.output).sum)).sum
    ∧ (ws.foldl (accumWorker prov) m).cache_creation_tokens =
        m.cache_creation_tokens
          + (ws.map
              (fun x => ((readConversation prov x.id).results.map Usage.cache_creation).sum)).sum
    ∧ (ws.foldl (accumWorker prov) m).cache_read_tokens =
        m.cache_read_tokens
          + (ws.map
              (fun x => ((readConversation prov x.id).results.map Usage.cache_read).sum)).sum
    ∧ (ws.foldl (accumWorker prov) m).worker_summaries =
        m.worker_summaries ++ (ws.filter (rowCond prov)).map (mkRow prov) := by
  induction ws generalizing m with
  | nil => simp
  | cons w ws ih =>
    rw [List.foldl_cons]
    obtain ⟨p0, p1, p2, p3, p4, p5, p6, p7, p8, p9, p10⟩ := ih (accumWorker prov m w)
    obtain ⟨q0, q1, q2, q3, q4, q5, q6, q7, q8, q9, q10⟩ := accumWorker_proj prov m w
    refine ⟨?_, ?_, ?_, ?_, ?_, ?_, ?_, ?_, ?_, ?_, ?_⟩
    · rw [p0, q0]
    · rw [p1, q1]; simp [add_assoc]
    · rw [p2, q2]; simp [add_assoc]
    · rw [p3, q3]; simp [add_assoc]
    · rw [p4, q4]; simp [add_assoc]
    · rw [p5, q5]; simp [add_assoc]
    · rw [p6, q6]; simp [add_assoc]
    · rw [p7, q7]; simp [add_assoc]
    · rw [p8, q8]; simp [add_assoc]
    · rw [p9, q9]; simp [add_assoc]
    · rw [p10, q10]
      cases hrc : rowCond prov w <;> simp [List.filter_cons, hrc, List.append_assoc]

theorem aggregate_spec (prov : String → Option ConversationData)
    (alive verified : Nat → Bool) (root : RootDir) :
    (aggregate_worker_metrics prov alive verified root).total_turns =
        ((scan_workers alive verified root).map
          (fun x => (summaryOf prov x.id).turns)).sum
    ∧ (aggregate_worker_metrics prov alive verified root).total_tool_calls =
        ((scan_workers alive verified root).map
          (fun x => (summaryOf prov x.id).tool_calls)).sum
    ∧ (aggregate_worker_metrics prov alive verified root).total_cost_usd =
        ((scan_workers alive verified root).map
          (fun x => (summaryOf prov x.id).cost_usd)).sum
    ∧ (aggregate_worker_metrics prov alive verified root).total_duration_ms =
        ((scan_workers alive verified root).map
          (fun x => (summaryOf prov x.id).duration_ms)).sum
    ∧ (aggregate_worker_metrics prov alive verified root).total_tokens =
        ((scan_workers alive verified root).map
          (fun x => (summaryOf prov x.id).tokens)).sum
    ∧ (aggregate_worker_metrics prov alive verified root).input_tokens =
        ((scan_workers alive verified root).map
          (fun x => ((readConversation prov x.id).results.map Usage.input).sum)).sum
    ∧ (aggregate_worker_metrics prov alive verified root).output_tokens =
        ((scan_workers alive verified root).map
          (fun x => ((readConversation prov x.id).results.map Usage.output).sum)).sum
    ∧ (aggregate_worker_metrics prov alive verified root).cache_creation_tokens =
        ((scan_workers alive verified root).map
          (fun x => ((readConversation prov x.id).results.map Usage.cache_creation).sum)).sum
    ∧ (aggregate_worker_metrics prov alive verified root).cache_read_tokens =
        ((scan_workers alive verified root).map
          (fun x => ((readConversation prov x.id).results.map Usage.cache_read).sum)).sum
    ∧ (aggregate_worker_metrics prov alive verified root).worker_summaries =
        (((scan_workers alive verified root).filter (rowCond prov)).map
          (mkRow prov)).mergeSort costDescLe := by
  unfold aggregate_worker_metrics
  obtain ⟨p0, p1, p2, p3, p4, p5, p6, p7, p8, p9, p10⟩ :=
    foldl_accumWorker_spec prov (scan_workers alive verified root)
      { total_workers := (scan_workers alive verified root).length }
  refine ⟨?_, ?_, ?_, ?_, ?_, ?_, ?_, ?_, ?_, ?_⟩ <;>
    simp [p1, p2, p3, p4, p5, p6, p7, p8, p9, p10]

/-! ## Claim theorems: process control -/

/-- C7: the liveness probe returns `False` when the process does not exist
(`ProcessLookupError`), and `True` both when the process is signalable and
when the caller merely lacks permission to signal it (`PermissionError`):
existence, not signalability, is what is tested. -/
theorem c7_liveness_probe (kill0 : Nat → KillOutcome) (pid : Nat) :
    (kill0 pid = .noSuchProcess → is_process_running kill0 pid = false)
    ∧ (kill0 pid = .ok → is_process_running kill0 pid = true)
    ∧ (kill0 pid = .permissionDenied → is_process_running kill0 pid = true) := by
  unfold is_process_running
  exact ⟨fun h => by rw [h], fun h => by rw [h], fun h => by rw [h]⟩

/-- Witness for C7 at a concrete probe that distinguishes three PIDs. -/
theorem c7_liveness_probe_witness :
    is_process_running
        (fun p => if p = 0 then .noSuchProcess else if p = 1 then .ok else .permissionDenied)
        0 = false
    ∧ is_process_running
        (fun p => if p = 0 then .noSuchProcess else if p = 1 then .ok else .permissionDenied)
        1 = true
    ∧ is_process_running
        (fun p => if p = 0 then .noSuchProcess else if p = 1 then .ok else .permissionDenied)
        2 = true :=
  ⟨(c7_liveness_probe _ 0).1 (by decide),
   (c7_liveness_probe _ 1).2.1 (by decide),
   (c7_liveness_probe _ 2).2.2 (by decide)⟩

/-- C6: stop and kill return a boolean success flag (they are total functions
of the subprocess outcome); success is exactly a zero exit code of the
external `wiggum` command; timeout, missing command and OS errors all yield
`False`; and the graceful stop timeout (35 s) is strictly longer than the
forceful kill timeout (10 s). -/
theorem c6_control_facade (run : List String → Nat → RunOutcome) (wid : String) :
    (stop_worker run wid = true ↔
      run ["wiggum", "stop", wid] stopTimeoutSeconds = .completed 0)
    ∧ (kill_worker run wid = true ↔
      run ["wiggum", "kill", wid] killTimeoutSeconds = .completed 0)
    ∧ (run ["wiggum", "stop", wid] stopTimeoutSeconds = .timedOut →
        stop_worker run wid = false)
    ∧ (run ["wiggum", "stop", wid] stopTimeoutSeconds = .commandNotFound →
        stop_worker run wid = false)
    ∧ (run ["wiggum", "stop", wid] stopTimeoutSeconds = .osError →
        stop_worker run wid = false)
    ∧ (run ["wiggum", "kill", wid] killTimeoutSeconds = .timedOut →
        kill_worker run wid = false)
    ∧ (run ["wiggum", "kill", wid] killTimeoutSeconds = .commandNotFound →
        kill_worker run wid = false)
    ∧ (run ["wiggum", "kill", wid] killTimeoutSeconds = .osError →
        kill_worker run wid = false)
    ∧ killTimeoutSeconds < stopTimeoutSeconds := by
  unfold stop_worker kill_worker
  refine ⟨?_, ?_, fun h => by rw [h], fun h => by rw [h], fun h => by rw [h],
    fun h => by rw [h], fun h => by rw [h], fun h => by rw [h], by decide⟩
  · cases h : run ["wiggum", "stop", wid] stopTimeoutSeconds <;> simp [h]
  · cases h : run ["wiggum", "kill", wid] killTimeoutSeconds <;> simp [h]

/-- Witness for C6 at a concrete orchestrator oracle. -/
theorem c6_control_facade_witness :
    stop_worker (fun argv _ => if argv = ["wiggum", "stop", "w1"] then .completed 0 else .timedOut)
      "w1" = true
    ∧ kill_worker (fun _ _ => .timedOut) "w1" = false :=
  ⟨(c6_control_facade _ "w1").1.mpr (by decide),
   (c6_control_facade (fun _ _ => .timedOut) "w1").2.2.2.2.2.1 (by decide)⟩

/-- C10: identity verification returns `True` exactly when
`/proc/<pid>/cmdline` exists and its readable contents contain the substring
`bash`; a read error (OS or permission) and an absent entry both yield
`False`. -/
theorem c10_identity_verification (proc : Nat → ProcCmdline) (pid : Nat) :
    (verify_worker_process proc pid = true ↔
      ∃ s, proc pid = .readable s ∧ containsTok "bash".data s.data = true)
    ∧ (proc pid = .readError → verify_worker_process proc pid = false)
    ∧ (proc pid = .absent → verify_worker_process proc pid = false) := by
  unfold verify_worker_process
  refine ⟨?_, fun h => by rw [h], fun h => by rw [h]⟩
  cases h : proc pid with
  | absent => simp [h]
  | readError => simp [h]
  | readable s => simp [h]

/-- Witness for C10: a non-worker shell process whose command line contains
`bash` passes verification, and a read error fails it. -/
theorem c10_identity_verification_witness :
    verify_worker_process (fun _ => .readable "/bin/bash -c sleep") 7 = true
    ∧ verify_worker_process (fun _ => .readError) 7 = false :=
  ⟨(c10_identity_verification _ 7).1.mpr ⟨"/bin/bash -c sleep", rfl, by decide⟩,
   (c10_identity_verification (fun _ => .readError) 7).2.1 rfl⟩

/-! ## Claim theorems: completion marker reader and status resolution -/

/-- C2: the completion marker reader returns `failed` exactly when some line
carries the failed token (whatever other lines are present); `complete`
exactly when no line carries the failed token and no line carries the
unmarked token (in particular for a file with zero checklist lines); and
`incomplete` exactly when the file does not exist, or no line carries the
failed token and some line carries the unmarked token. -/
theorem gps_of_failed (c : String)
    (hf : (splitLines c.data).any lineCarriesFailed = true) :
    get_prd_status (some c) = .failed := by
  simp [get_prd_status, hf]

theorem gps_of_incomplete (c : String)
    (hf : (splitLines c.data).any lineCarriesFailed = false)
    (hu : (splitLines c.data).any lineCarriesUnmarked = true) :
    get_prd_status (some c) = .incomplete := by
  simp [get_prd_status, hf, hu]

theorem gps_of_complete (c : String)
    (hf : (splitLines c.data).any lineCarriesFailed = false)
    (hu : (splitLines c.data).any lineCarriesUnmarked = false) :
    get_prd_status (some c) = .complete := by
  simp [get_prd_status, hf, hu]

theorem c2_prd_verdict (file : Option String) :
    (get_prd_status file = .failed ↔
      ∃ c, file = some c ∧ (splitLines c.data).any lineCarriesFailed = true)
    ∧ (get_prd_status file = .complete ↔
      ∃ c, file = some c ∧ (splitLines c.data).any lineCarriesFailed = false
        ∧ (splitLines c.data).any lineCarriesUnmarked = false)
    ∧ (get_prd_status file = .incomplete ↔
      (file = none ∨ ∃ c, file = some c ∧ (splitLines c.data).any lineCarriesFailed = false
        ∧ (splitLines c.data).any lineCarriesUnmarked = true)) := by
  cases file with
  | none =>
    refine ⟨?_, ?_, ?_⟩
    · constructor
      · intro h; exact absurd h (by simp [get_prd_status])
      · rintro ⟨c, hc, -⟩; cases hc
    · constructor
      · intro h; exact absurd h (by simp [get_prd_status])
      · rintro ⟨c, hc, -⟩; cases hc
    · exact ⟨fun _ => Or.inl rfl, fun _ => rfl⟩
  | some c =>
    by_cases hf : (splitLines c.data).any lineCarriesFailed = true
    · have hg := gps_of_failed c hf
      refine ⟨⟨fun _ => ⟨c, rfl, hf⟩, fun _ => hg⟩, ?_, ?_⟩
      · constructor
        · intro h; rw [hg] at h; cases h
        · rintro ⟨c', hc', hf', -⟩
          obtain rfl : c' = c := by injection hc'.symm
          rw [hf] at hf'; cases hf'
      · constructor
        · intro h; rw [hg] at h; cases h
        · rintro (h | ⟨c', hc', hf', -⟩)
          · cases h
          · obtain rfl : c' = c := by injection hc'.symm
            rw [hf] at hf'; cases hf'
    · have hf' : (splitLines c.data).any lineCarriesFailed = false :=
        Bool.not_eq_true _ ▸ (by simpa using hf)
      by_cases hu : (splitLines c.data).any lineCarriesUnmarked = true
      · have hg := gps_of_incomplete c hf' hu
        refine ⟨?_, ?_, ⟨fun _ => Or.inr ⟨c, rfl, hf', hu⟩, fun _ => hg⟩⟩
        · constructor
          · intro h; rw [hg] at h; cases h
          · rintro ⟨c', hc', hff⟩
            obtain rfl : c' = c := by injection hc'.symm
            rw [hf'] at hff; cases hff
        · constructor
          · intro h; rw [hg] at h; cases h
          · rintro ⟨c', hc', -, huu⟩
            obtain rfl : c' = c := by injection hc'.symm
            rw [hu] at huu; cases huu
      · have hu' : (splitLines c.data).any lineCarriesUnmarked = false :=
          Bool.not_eq_true _ ▸ (by simpa using hu)
        have hg := gps_of_complete c hf' hu'
        refine ⟨?_, ⟨fun _ => ⟨c, rfl, hf', hu'⟩, fun _ => hg⟩, ?_⟩
        · constructor
          · intro h; rw [hg] at h; cases h
          · rintro ⟨c', hc', hff⟩
            obtain rfl : c' = c := by injection hc'.symm
            rw [hf'] at hff; cases hff
        · constructor
          · intro h; rw [hg] at h; cases h
          · rintro (h | ⟨c', hc', -, huu⟩)
            · cases h
            · obtain rfl : c' = c := by injection hc'.symm
              rw [hu'] at huu; cases huu

/-- Witness for C2: the precedence example of the spec, an empty file, and a
missing file. -/
theorem c2_prd_verdict_witness :
    get_prd_status (some "- [ ] A\n- [*] B") = .failed
    ∧ get_prd_status (some "") = .complete
    ∧ get_prd_status none = .incomplete :=
  ⟨(c2_prd_verdict (some "- [ ] A\n- [*] B")).1.mpr ⟨_, rfl, by decide⟩,
   (c2_prd_verdict (some "")).2.1.mpr ⟨_, rfl, by decide, by decide⟩,
   (c2_prd_verdict none).2.2.mpr (Or.inl rfl)⟩

/-- C1: the resolved status is RUNNING exactly when the liveness marker is
present with a parsable PID, the OS process is alive, and identity
verification passes; whenever liveness or verification is false the status is
the marker verdict (FAILED for `failed`, COMPLETED for `complete`, STOPPED
otherwise) even though a PID file exists; and every resolution is either
RUNNING or the marker verdict. -/
theorem c1_status_resolution (alive verified : Nat → Bool) (pidFile : Option String)
    (v : Verdict) :
    (resolve_status alive verified pidFile v = .running ↔
      ∃ s pid, pidFile = some s ∧ parsePid s = some pid
        ∧ alive pid = true ∧ verified pid = true)
    ∧ (∀ s pid, pidFile = some s → parsePid s = some pid →
        ¬(alive pid = true ∧ verified pid = true) →
        resolve_status alive verified pidFile v = statusFromMarker v)
    ∧ (resolve_status alive verified pidFile v = .running
        ∨ resolve_status alive verified pidFile v = statusFromMarker v)
    ∧ statusFromMarker .failed = .failed
    ∧ statusFromMarker .complete = .completed
    ∧ statusFromMarker .incomplete = .stopped := by
  have hmark : statusFromMarker v ≠ .running := by
    cases v <;> simp [statusFromMarker]
  cases pidFile with
  | none =>
    have hg : resolve_status alive verified none v = statusFromMarker v := by
      simp [resolve_status]
    refine ⟨?_, ?_, Or.inr hg, rfl, rfl, rfl⟩
    · rw [hg]
      constructor
      · intro h; exact absurd h hmark
      · rintro ⟨s, pid, hs, -⟩; cases hs
    · intro s pid h; cases h
  | some s =>
    cases hp : parsePid s with
    | none =>
      have hg : resolve_status alive verified (some s) v = statusFromMarker v := by
        simp [resolve_status, hp]
      refine ⟨?_, ?_, Or.inr hg, rfl, rfl, rfl⟩
      · rw [hg]
        constructor
        · intro h; exact absurd h hmark
        · rintro ⟨t, pid, ht, hpid, -⟩
          obtain rfl : t = s := by injection ht.symm
          rw [hp] at hpid; cases hpid
      · intro t pid ht hpid
        obtain rfl : t = s := by injection ht.symm
        rw [hp] at hpid; cases hpid
    | some pid =>
      by_cases ha : alive pid = true
      · by_cases hv : verified pid = true
        · have hg : resolve_status alive verified (some s) v = .running := by
            simp [resolve_status, hp, ha, hv]
          refine ⟨?_, ?_, Or.inl hg, rfl, rfl, rfl⟩
          · rw [hg]
            exact ⟨fun _ => ⟨s, pid, rfl, hp, ha, hv⟩, fun _ => rfl⟩
          · rintro t pid' ht hpid' hcon
            obtain rfl : t = s := by injection ht.symm
            rw [hp] at hpid'
            obtain rfl : pid = pid' := by injection hpid'
            exact absurd ⟨ha, hv⟩ hcon
        · have hv' : verified pid = false := by
            cases h : verified pid
            · rfl
            · exact absurd h hv
          have hg : resolve_status alive verified (some s) v = statusFromMarker v := by
            simp [resolve_status, hp, hv']
          refine ⟨?_, fun _ _ _ _ _ => hg, Or.inr hg, rfl, rfl, rfl⟩
          rw [hg]
          constructor
          · intro h; exact absurd h hmark
          · rintro ⟨t, pid', ht, hpid', -, hvv⟩
            obtain rfl : t = s := by injection ht.symm
            rw [hp] at hpid'
            obtain rfl : pid = pid' := by injection hpid'
            rw [hv'] at hvv; cases hvv
      · have ha' : alive pid = false := by
          cases h : alive pid
          · rfl
          · exact absurd h ha
        have hg : resolve_status alive verified (some s) v = statusFromMarker v := by
          simp [resolve_status, hp, ha']
        refine ⟨?_, fun _ _ _ _ _ => hg, Or.inr hg, rfl, rfl, rfl⟩
        rw [hg]
        constructor
        · intro h; exact absurd h hmark
        · rintro ⟨t, pid', ht, hpid', haa, -⟩
          obtain rfl : t = s := by injection ht.symm
          rw [hp] at hpid'
          obtain rfl : pid = pid' := by injection hpid'
          rw [ha'] at haa; cases haa

/-- Witness for C1: a live and verified PID resolves to RUNNING; the same PID
file with a dead process falls through to the marker verdict. -/
theorem c1_status_resolution_witness :
    resolve_status (fun _ => true) (fun _ => true) (some "12345") .incomplete = .running
    ∧ resolve_status (fun _ => false) (fun _ => true) (some "12345") .failed =
        statusFromMarker .failed :=
  ⟨(c1_status_resolution (fun _ => true) (fun _ => true) (some "12345") .incomplete).1.mpr
      ⟨"12345", 12345, rfl, by decide, rfl, rfl⟩,
   (c1_status_resolution (fun _ => false) (fun _ => true) (some "12345") .failed).2.1
      "12345" 12345 rfl (by decide) (by simp)⟩

/-! ## Claim theorems: change detection -/

/-- C9: the change-detection fingerprint is a function of the snapshot counts
together with the summed cost, turns and tool calls — metrics agreeing on all
of those hash equally — and a refresh skips re-rendering exactly when the
newly computed fingerprint equals the stored one. -/
theorem c9_change_detection (m₁ m₂ : AggregateMetrics)
    (prov : String → Option ConversationData) (alive verified : Nat → Bool)
    (root : RootDir) (s : MetricsPanelState)
    (h1 : m₁.total_workers = m₂.total_workers)
    (h2 : m₁.running_workers = m₂.running_workers)
    (h3 : m₁.completed_workers = m₂.completed_workers)
    (h4 : m₁.failed_workers = m₂.failed_workers)
    (h5 : m₁.total_cost_usd = m₂.total_cost_usd)
    (h6 : m₁.total_turns = m₂.total_turns)
    (h7 : m₁.total_tool_calls = m₂.total_tool_calls) :
    compute_data_hash m₁ = compute_data_hash m₂
    ∧ ((refresh_data prov alive verified root s).1 = true ↔
        compute_data_hash (aggregate_worker_metrics prov alive verified root) =
          s.last_data_hash) := by
  constructor
  · unfold compute_data_hash
    rw [h1, h3, h4, h5, h6, h7]
  · unfold refresh_data
    by_cases h : compute_data_hash (aggregate_worker_metrics prov alive verified root) =
        s.last_data_hash
    · simp [h]
    · simp [h]

/-- Witness for C9: two metrics differing only in a field outside the
fingerprint hash equally, and a refresh against the stored fingerprint of the
same empty root skips re-rendering. -/
theorem c9_change_detection_witness :
    compute_data_hash { total_tokens := 5 } = compute_data_hash ({} : AggregateMetrics)
    ∧ ((refresh_data (fun _ => none) (fun _ => false) (fun _ => false) ⟨none⟩
          ⟨{}, compute_data_hash (aggregate_worker_metrics (fun _ => none)
            (fun _ => false) (fun _ => false) ⟨none⟩)⟩).1 = true ↔
        compute_data_hash (aggregate_worker_metrics (fun _ => none)
          (fun _ => false) (fun _ => false) ⟨none⟩) =
          compute_data_hash (aggregate_worker_metrics (fun _ => none)
            (fun _ => false) (fun _ => false) ⟨none⟩)) :=
  c9_change_detection { total_tokens := 5 } {} (fun _ => none) (fun _ => false)
    (fun _ => false) ⟨none⟩ _ rfl rfl rfl rfl rfl rfl rfl

/-! ## Claim theorems: worker directory scanner -/

/-- C3: the scanner yields exactly one worker per directory entry of the
`workers` child that is a subdirectory and whose name matches
`worker-<TASK_ID>-<TIMESTAMP>` (task id of 4 to 10 uppercase letters, digits
and hyphens; timestamp of 1 to 10 decimal digits), extracting the task id and
timestamp exactly as encoded in the name; ordinary files and non-matching
names are excluded; and the scanner returns the empty sequence when the
`workers` directory does not exist. -/
theorem c3_scanner_contract (alive verified : Nat → Bool) (root : RootDir) :
    (root.workersDir = none → scan_workers alive verified root = [])
    ∧ (∀ w, w ∈ scan_workers alive verified root ↔
        ∃ entries, root.workersDir = some entries
          ∧ ∃ e ∈ entries, resolveEntry alive verified e = some w)
    ∧ (∀ e w, resolveEntry alive verified e = some w →
        w.id = e.name ∧ matchWorkerName e.name = some (w.task_id, w.timestamp))
    ∧ (∀ name tid ts, matchWorkerName name = some (tid, ts) ↔
        ∃ ds : List Char,
          name.data = "worker-".data ++ (tid.data ++ '-' :: ds)
          ∧ ds.all Char.isDigit = true
          ∧ 1 ≤ ds.length ∧ ds.length ≤ 10
          ∧ 4 ≤ tid.data.length ∧ tid.data.length ≤ 10
          ∧ tid.data.all isTaskIdChar = true
          ∧ ts = natOfDigits ds)
    ∧ (∀ e, e.isDir = false → resolveEntry alive verified e = none)
    ∧ (∀ e, matchWorkerName e.name = none → resolveEntry alive verified e = none)
    ∧ (∀ entries, root.workersDir = some entries →
        (scan_workers alive verified root).length =
          (entries.filter (fun e => e.isDir && (matchWorkerName e.name).isSome)).length) := by
  refine ⟨?_, fun w => mem_scan_iff alive verified root w,
    fun e w h => ⟨(resolveEntry_some_spec alive verified e w h).2.1,
      (resolveEntry_some_spec alive verified e w h).2.2.1⟩,
    fun name tid ts => matchWorkerName_decomp name tid ts,
    fun e h => resolveEntry_of_not_dir alive verified e h,
    fun e h => resolveEntry_of_no_match alive verified e h, ?_⟩
  · intro h
    unfold scan_workers
    rw [h]
  · intro entries h
    unfold scan_workers
    rw [h]
    rw [(List.mergeSort_perm (entries.filterMap (resolveEntry alive verified)) tsDescLe).length_eq]
    rw [length_filterMap_eq_length_filter]
    congr 1
    exact List.filter_congr (fun e _ => resolveEntry_isSome alive verified e)

/-- Witness for C3: an absent `workers` directory scans to the empty list; a
plain file and a directory with a malformed name are both excluded. -/
theorem c3_scanner_contract_witness :
    scan_workers (fun _ => false) (fun _ => false) ⟨none⟩ = []
    ∧ resolveEntry (fun _ => false) (fun _ => false)
        { name := "somefile.txt", isDir := false, pidFile := none, prdFile := none,
          prUrlFile := none } = none
    ∧ resolveEntry (fun _ => false) (fun _ => false)
        { name := "worker-invalid", isDir := true, pidFile := none, prdFile := none,
          prUrlFile := none } = none :=
  ⟨(c3_scanner_contract (fun _ => false) (fun _ => false) ⟨none⟩).1 rfl,
   (c3_scanner_contract (fun _ => false) (fun _ => false) ⟨none⟩).2.2.2.2.1 _ rfl,
   (c3_scanner_contract (fun _ => false) (fun _ => false) ⟨none⟩).2.2.2.2.2.1 _ (by decide)⟩

/-- C4: the sequence of workers returned by the scanner is ordered by the
timestamp embedded in each worker directory name, descending. -/
theorem c4_scan_sorted_by_timestamp (alive verified : Nat → Bool) (root : RootDir) :
    List.Pairwise (fun a b : Worker => b.timestamp ≤ a.timestamp)
      (scan_workers alive verified root) := by
  unfold scan_workers
  cases root.workersDir with
  | none => exact List.Pairwise.nil
  | some es =>
    refine (List.sorted_mergeSort ?_ ?_ (es.filterMap (resolveEntry alive verified))).imp ?_
    · intro a b c hab hbc
      simp only [tsDescLe, decide_eq_true_eq] at *
      omega
    · intro a b
      simp only [tsDescLe, Bool.or_eq_true, decide_eq_true_eq]
      omega
    · intro a b h
      simpa [tsDescLe] using h

/-! ## Claim theorems: fleet aggregator -/

/-- C5: when the log-summary provider fails for one worker, the aggregation
pass still completes over the whole fleet — every running total equals the sum
of the per-worker contributions over all scanned workers, the failing worker
contributes the zero summary and an empty result list to each of them, and it
is omitted from the per-worker summary-row list. The aggregator is a total
function of the provider and the scan, so no exception reaches its caller. -/
theorem c5_provider_failure_isolated (prov : String → Option ConversationData)
    (alive verified : Nat → Bool) (root : RootDir) (w : Worker)
    (hw : w ∈ scan_workers alive verified root)
    (hfail : prov w.id = none) :
    summaryOf prov w.id = zeroSummary
    ∧ (readConversation prov w.id).results = []
    ∧ (aggregate_worker_metrics prov alive verified root).total_turns =
        ((scan_workers alive verified root).map (fun x => (summaryOf prov x.id).turns)).sum
    ∧ (aggregate_worker_metrics prov alive verified root).total_tool_calls =
        ((scan_workers alive verified root).map
          (fun x => (summaryOf prov x.id).tool_calls)).sum
    ∧ (aggregate_worker_metrics prov alive verified root).total_cost_usd =
        ((scan_workers alive verified root).map
          (fun x => (summaryOf prov x.id).cost_usd)).sum
    ∧ (aggregate_worker_metrics prov alive verified root).total_duration_ms =
        ((scan_workers alive verified root).map
          (fun x => (summaryOf prov x.id).duration_ms)).sum
    ∧ (aggregate_worker_metrics prov alive verified root).total_tokens =
        ((scan_workers alive verified root).map (fun x => (summaryOf prov x.id).tokens)).sum
    ∧ (aggregate_worker_metrics prov alive verified root).input_tokens =
        ((scan_workers alive verified root).map
          (fun x => ((readConversation prov x.id).results.map Usage.input).sum)).sum
    ∧ (aggregate_worker_metrics prov alive verified root).output_tokens =
        ((scan_workers alive verified root).map
          (fun x => ((readConversation prov x.id).results.map Usage.output).sum)).sum
    ∧ w.id ∉ (aggregate_worker_metrics prov alive verified root).worker_summaries.map
        WorkerSummaryRow.worker_id := by
  have hsum : summaryOf prov w.id = zeroSummary := by
    simp [summaryOf, readConversation, hfail]
  have hres : (readConversation prov w.id).results = [] := by
    simp [readConversation, hfail]
  obtain ⟨a1, a2, a3, a4, a5, a6, a7, a8, a9, a10⟩ := aggregate_spec prov alive verified root
  refine ⟨hsum, hres, a1, a2, a3, a4, a5, a6, a7, ?_⟩
  rw [a10]
  intro hmem
  rcases List.mem_map.mp hmem with ⟨row, hrowmem, hrowid⟩
  have hrowmem' := (List.mergeSort_perm _ costDescLe).mem_iff.mp hrowmem
  rcases List.mem_map.mp hrowmem' with ⟨x, hxmem, rfl⟩
  rcases List.mem_filter.mp hxmem with ⟨hxws, hxcond⟩
  have hxid : x.id = w.id := by simpa [mkRow] using hrowid
  rw [rowCond] at hxcond
  simp only [hxid, hsum] at hxcond
  simp [zeroSummary] at hxcond

/-- Witness for C5: a one-worker fleet whose provider fails leaves the worker
out of the summary-row list. -/
theorem c5_provider_failure_isolated_witness :
    ({ id := "worker-TASK-001-1700000000", task_id := "TASK-001",
       timestamp := 1700000000, pid := none, status := .stopped,
       pr_url := none } : Worker).id ∉
      (aggregate_worker_metrics (fun _ => none) (fun _ => false) (fun _ => false)
        ⟨some [{ name := "worker-TASK-001-1700000000", isDir := true, pidFile := none,
                 prdFile := none, prUrlFile := none }]⟩).worker_summaries.map
        WorkerSummaryRow.worker_id :=
  (c5_provider_failure_isolated (fun _ => none) (fun _ => false) (fun _ => false)
    ⟨some [{ name := "worker-TASK-001-1700000000", isDir := true, pidFile := none,
             prdFile := none, prUrlFile := none }]⟩
    { id := "worker-TASK-001-1700000000", task_id := "TASK-001",
      timestamp := 1700000000, pid := none, status := .stopped, pr_url := none }
    ((mem_scan_iff (fun _ => false) (fun _ => false)
        ⟨some [{ name := "worker-TASK-001-1700000000", isDir := true, pidFile := none,
                 prdFile := none, prUrlFile := none }]⟩ _).mpr
      ⟨[{ name := "worker-TASK-001-1700000000", isDir := true, pidFile := none,
          prdFile := none, prUrlFile := none }], rfl,
       { name := "worker-TASK-001-1700000000", isDir := true, pidFile := none,
         prdFile := none, prUrlFile := none }, List.mem_singleton.mpr rfl, by decide⟩)
    rfl).2.2.2.2.2.2.2.2.2

/-- C8: the per-worker summary-row list of the aggregate snapshot is (a
permutation of) the rows for exactly those scanned workers whose turn count
or cost is nonzero, and the list is sorted by cost descending. Each row
carries the worker id, task, status, turns, tool calls, cost, duration and
tokens, as recorded by `mkRow`. -/
theorem c8_summary_rows (prov : String → Option ConversationData)
    (alive verified : Nat → Bool) (root : RootDir)
    (hnn : ∀ x ∈ scan_workers alive verified root, 0 ≤ (summaryOf prov x.id).cost_usd) :
    (aggregate_worker_metrics prov alive verified root).worker_summaries.Perm
      (((scan_workers alive verified root).filter
          (fun x => decide ((summaryOf prov x.id).turns ≠ 0)
            || decide ((summaryOf prov x.id).cost_usd ≠ 0))).map (mkRow prov))
    ∧ List.Pairwise (fun a b : WorkerSummaryRow => b.cost_usd ≤ a.cost_usd)
        (aggregate_worker_metrics prov alive verified root).worker_summaries := by
  obtain ⟨-, -, -, -, -, -, -, -, -, a10⟩ := aggregate_spec prov alive verified root
  have hfe : (scan_workers alive verified root).filter (rowCond prov) =
      (scan_workers alive verified root).filter
        (fun x => decide ((summaryOf prov x.id).turns ≠ 0)
          || decide ((summaryOf prov x.id).cost_usd ≠ 0)) := by
    refine List.filter_congr (fun x hx => ?_)
    rw [rowCond]
    have h1 : decide (0 < (summaryOf prov x.id).turns) =
        decide ((summaryOf prov x.id).turns ≠ 0) :=
      decide_eq_decide.mpr Nat.pos_iff_ne_zero
    have h2 : decide (0 < (summaryOf prov x.id).cost_usd) =
        decide ((summaryOf prov x.id).cost_usd ≠ 0) :=
      decide_eq_decide.mpr (((hnn x hx).lt_iff_ne).trans ne_comm)
    rw [h1, h2]
  constructor
  · rw [a10, hfe]
    exact List.mergeSort_perm _ _
  · rw [a10]
    refine (List.sorted_mergeSort ?_ ?_ _).imp ?_
    · intro a b c hab hbc
      simp only [costDescLe, decide_eq_true_eq] at *
      exact le_trans hbc hab
    · intro a b
      simp only [costDescLe, Bool.or_eq_true, decide_eq_true_eq]
      exact le_total _ _
    · intro a b h
      simpa [costDescLe] using h

/-- Witness for C8: a one-worker fleet with positive turns and cost has a
summary-row list sorted by cost descending. -/
theorem c8_summary_rows_witness :
    List.Pairwise (fun a b : WorkerSummaryRow => b.cost_usd ≤ a.cost_usd)
      (aggregate_worker_metrics
        (fun _ => some { summary := { turns := 3, tool_calls := 1, cost_usd := 2,
                                      duration_ms := 4, tokens := 5 }, results := [] })
        (fun _ => false) (fun _ => false)
        ⟨some [{ name := "worker-TASK-001-1700000000", isDir := true, pidFile := none,
                 prdFile := none, prUrlFile := none }]⟩).worker_summaries :=
  (c8_summary_rows
    (fun _ => some { summary := { turns := 3, tool_calls := 1, cost_usd := 2,
                                  duration_ms := 4, tokens := 5 }, results := [] })
    (fun _ => false) (fun _ => false)
    ⟨some [{ name := "worker-TASK-001-1700000000", isDir := true, pidFile := none,
             prdFile := none, prUrlFile := none }]⟩
    (fun x _ => by norm_num [summaryOf, readConversation])).2

end Wiggum
